import Mathlib

/-!
Verification development for the Nebula replication graph
(`Source/Nebula/System/NebulaReplicationGraph.cpp/.h`).

The development shallowly embeds the routing-policy resolver, the
precomputed-visibility (PVS) grid node, the always-relevant-for-connection
node, the player-state frequency limiter, and the graph-level add/remove and
world-reset routines.  Machine floats of the source are embedded as exact
rationals; `int32` casts of float quotients (`UE::LWC::FloatToIntCastChecked`)
are embedded as truncation toward zero; Unreal containers (`TMap`, `TArray`,
`FActorRepListRefView`) are embedded as association lists and lists.
-/

set_option maxRecDepth 8000

namespace NebulaRepGraph

/-- Actors are identified by a stable integer id. -/
abbrev Actor := Nat

/-- Streaming level names (`FName`) are identified by an integer id. -/
abbrev LevelName := Nat

/-- Grid cell coordinate, embedding `FIntPoint`. -/
abbrev CellCoord := Int × Int

/-- Association-list find, embedding `TMap::Find` (exact key lookup). -/
def assocFind {α β : Type} [DecidableEq α] (k : α) : List (α × β) → Option β
  | [] => none
  | (k2, v) :: rest => if k2 = k then some v else assocFind k rest

/-- Relevancy flags read from a class default object in
`UNebulaReplicationGraph::GetClassNodeMapping`:
`GetIsReplicated()`, `bAlwaysRelevant`, `bOnlyRelevantToOwner`,
`bNetUseOwnerRelevancy`. -/
structure ActorTraits where
  bReplicated : Bool
  bAlwaysRelevant : Bool
  bOnlyRelevantToOwner : Bool
  bNetUseOwnerRelevancy : Bool
deriving DecidableEq, Repr

/-- Routing policies, embedding `EClassRepNodeMapping`. -/
inductive EClassRepNodeMapping where
  | NotRouted
  | RelevantAllConnections
  | Spatialize_Static
  | Spatialize_Dynamic
  | Spatialize_Dormancy
  | PrecomputedVisibility
deriving DecidableEq, Repr

/-- A `UClass` as the resolver sees it: its default-object traits, whether the
class is `ANebulaCharacter` itself (`isNebulaCharacter`), and its super class
chain.  A `root` class is one whose super class is not an `AActor` subclass
(so the resolver's `Cast<AActor>(SuperClass->GetDefaultObject())` fails). -/
inductive UClassM where
  | root (traits : ActorTraits) (isNebulaCharacter : Bool)
  | child (parent : UClassM) (traits : ActorTraits) (isNebulaCharacter : Bool)
deriving DecidableEq, Repr

/-- Traits of the class default object. -/
def UClassM.traits : UClassM → ActorTraits
  | .root t _ => t
  | .child _ t _ => t

/-- Embeds `Class->IsChildOf(ANebulaCharacter::StaticClass())`:
true when the class is `ANebulaCharacter` or inherits from it. -/
def UClassM.isChildOfNebulaCharacter : UClassM → Bool
  | .root _ b => b
  | .child p _ b => b || p.isChildOfNebulaCharacter

/-- The `ShouldSpatialize` lambda of `GetClassNodeMapping`. -/
def shouldSpatialize (t : ActorTraits) : Bool :=
  t.bReplicated && !(t.bAlwaysRelevant || t.bOnlyRelevantToOwner || t.bNetUseOwnerRelevancy)

/-- Embeds `UNebulaReplicationGraph::GetClassNodeMapping`
(NebulaReplicationGraph.cpp, lines 272-329).  `policies` embeds
`ClassRepNodePolicies.FindWithoutClassRecursion` (the exact-key entries of the
class-policy table, holding explicitly set classes and memoized results).
The null-class guard of the source is not representable (every `UClassM` is a
class).  Resolution order, as in the source: explicit table entry; the
`ANebulaCharacter` subclass special case; the not-replicated check; the
identical-parent-traits delegation; trait-based resolution.
The trait-based tail of the function (`ShouldSpatialize` / always-relevant /
fallthrough) is factored into `mappingFromTraits`; in the source the parent
cast `Cast<AActor>(SuperClass->GetDefaultObject())` fails for a `root` class,
so only a `child` class can delegate to its parent. -/
def mappingFromTraits (t : ActorTraits) : EClassRepNodeMapping :=
  if shouldSpatialize t then .Spatialize_Dynamic
  else if t.bAlwaysRelevant && !t.bOnlyRelevantToOwner then .RelevantAllConnections
  else .NotRouted

def getClassNodeMapping (policies : UClassM → Option EClassRepNodeMapping) :
    UClassM → EClassRepNodeMapping
  | .root t b =>
    match policies (.root t b) with
    | some m => m
    | none =>
      if (UClassM.root t b).isChildOfNebulaCharacter then .PrecomputedVisibility
      else if !t.bReplicated then .NotRouted
      else mappingFromTraits t
  | .child p t b =>
    match policies (.child p t b) with
    | some m => m
    | none =>
      if (UClassM.child p t b).isChildOfNebulaCharacter then .PrecomputedVisibility
      else if !t.bReplicated then .NotRouted
      else if p.traits = t then getClassNodeMapping policies p
      else mappingFromTraits t

/-- Empty class-policy table (no explicit entries, no memoized entries). -/
def emptyPolicies : UClassM → Option EClassRepNodeMapping := fun _ => none

/-- Pawn-like traits: replicated, no relevancy override flags. -/
def traitsPawnLike : ActorTraits := ⟨true, false, false, false⟩

/-- Non-replicated traits, no relevancy override flags. -/
def traitsOff : ActorTraits := ⟨false, false, false, false⟩

/-- A stand-in for `ACharacter`: replicated, no override flags, not
`ANebulaCharacter`. -/
def classACharacter : UClassM := .root traitsPawnLike false

/-- A stand-in for `ANebulaCharacter`: direct child of `classACharacter` with
bit-identical traits, marked as the Nebula character class. -/
def classNebulaCharacter : UClassM := .child classACharacter traitsPawnLike true

/-- Truncation toward zero of a rational, embedding the C++ float-to-int
cast performed by `UE::LWC::FloatToIntCastChecked<int32>`. -/
def truncQ (q : ℚ) : ℤ := if 0 ≤ q then ⌊q⌋ else ⌈q⌉

/-- Grid cell index of a world position, as computed in
`UNebularReplicationGraphNode_PrecomputedVisibilityGrid2D::PrepareForReplication`
(lines 1054-1055) and `GatherActorListsForConnection` (lines 1115-1116):
`FloatToIntCastChecked<int32>((WorldLocation - SpatialBias) / CellSize)`
componentwise. -/
def cellOf (bias : ℚ × ℚ) (cellSize : ℚ) (pos : ℚ × ℚ) : CellCoord :=
  (truncQ ((pos.1 - bias.1) / cellSize), truncQ ((pos.2 - bias.2) / cellSize))

/-- Contents of one grid cell's dynamic actor list.  A cell whose
`UReplicationGraphNode_GridCell` was never allocated holds no actors. -/
def cellList (g : List (CellCoord × List Actor)) (c : CellCoord) : List Actor :=
  (assocFind c g).getD []

/-- Append an actor to a cell's dynamic list, embedding
`GetCellNode(GetCell(X, Y))->AddDynamicActor(ActorInfo)` (the grid cell node
is allocated on demand). -/
def cellsAddDynamicActor (k : CellCoord) (a : Actor) :
    List (CellCoord × List Actor) → List (CellCoord × List Actor)
  | [] => [(k, [a])]
  | (c, l) :: rest =>
    if c = k then (c, l ++ [a]) :: rest else (c, l) :: cellsAddDynamicActor k a rest

/-- Remove an actor from a cell's dynamic list, embedding
`GetCell(X, Y)->RemoveDynamicActor(ActorInfo)`; when the cell node was never
allocated the source skips the call, so an absent cell stays absent. -/
def cellsRemoveDynamicActor (k : CellCoord) (a : Actor) :
    List (CellCoord × List Actor) → List (CellCoord × List Actor)
  | [] => []
  | (c, l) :: rest =>
    if c = k then (c, l.erase a) :: rest else (c, l) :: cellsRemoveDynamicActor k a rest

/-- State of `UNebularReplicationGraphNode_PrecomputedVisibilityGrid2D`:
the `DynamicSpatializedActors` map (actor to cached `FActorCellInfo`, whose
initial value `(-1, -1)` means not yet placed — `IsValid()` is `X != -1`),
and the `Grid` of per-cell dynamic actor lists. -/
structure PVSNodeState where
  dynamicSpatializedActors : List (Actor × CellCoord)
  gridCells : List (CellCoord × List Actor)
deriving DecidableEq, Repr

/-- The PVS node freshly constructed: no tracked actors, no allocated cells. -/
def pvsInit : PVSNodeState := ⟨[], []⟩

/-- Embeds `TMap::Emplace(ActorInfo.Actor, ActorInfo)` in
`AddActorInternal_Dynamic` (line 1135): inserts the actor with a
default-constructed (invalid) cached cell, replacing any existing entry. -/
def emplaceDynamic (a : Actor) : List (Actor × CellCoord) → List (Actor × CellCoord)
  | [] => [(a, (-1, -1))]
  | (b, c) :: rest => if b = a then (a, (-1, -1)) :: rest else (b, c) :: emplaceDynamic a rest

/-- Embeds `UNebularReplicationGraphNode_PrecomputedVisibilityGrid2D::AddActorInternal_Dynamic`
(lines 1132-1136). -/
def addActorInternal_Dynamic (a : Actor) (st : PVSNodeState) : PVSNodeState :=
  { st with dynamicSpatializedActors := emplaceDynamic a st.dynamicSpatializedActors }

/-- Embeds `TMap::Remove(ActorInfo.Actor)`: drops the actor's entry. -/
def removeDynamicEntry (a : Actor) : List (Actor × CellCoord) → List (Actor × CellCoord)
  | [] => []
  | (b, c) :: rest => if b = a then rest else (b, c) :: removeDynamicEntry a rest

/-- Embeds `UNebularReplicationGraphNode_PrecomputedVisibilityGrid2D::RemoveActorInternal_Dynamic`
(lines 1138-1155): when the actor is tracked, its cached cell (if valid) is
cleaned and the map entry dropped; when it is not tracked, the state is left
unchanged (the function only logs). -/
def removeActorInternal_Dynamic (a : Actor) (st : PVSNodeState) : PVSNodeState :=
  match assocFind a st.dynamicSpatializedActors with
  | none => st
  | some prev =>
    { dynamicSpatializedActors := removeDynamicEntry a st.dynamicSpatializedActors
      gridCells :=
        if prev.1 ≠ -1 then cellsRemoveDynamicActor prev a st.gridCells else st.gridCells }

/-- Body of the per-actor loop of
`UNebularReplicationGraphNode_PrecomputedVisibilityGrid2D::PrepareForReplication`
(lines 1044-1099), processing the `DynamicSpatializedActors` entries in map
order while updating the grid: compute the actor's current cell from its world
location; if the cached cell is valid and differs, move the actor between the
two cells (`prepStepCells`); if the cache is invalid (first time), just add;
the cached cell is written back (`prepStepCache`).  Returns the updated map
entries and grid. -/
def prepStepCells (a : Actor) (prev newCell : CellCoord)
    (g : List (CellCoord × List Actor)) : List (CellCoord × List Actor) :=
  if prev.1 ≠ -1 then
    if prev ≠ newCell then
      cellsAddDynamicActor newCell a (cellsRemoveDynamicActor prev a g)
    else g
  else cellsAddDynamicActor newCell a g

/-- Cached cell written back for one actor (`PreviousCellInfo = NewCellInfo`
in the moved and first-time branches; left as the previous value when the
cell did not change). -/
def prepStepCache (prev newCell : CellCoord) : CellCoord :=
  if prev.1 ≠ -1 then (if prev ≠ newCell then newCell else prev) else newCell

/-- The per-actor loop of `PrepareForReplication`, over the remaining map
entries, threading the grid through `prepStepCells`. -/
def prepareGo (bias : ℚ × ℚ) (cellSize : ℚ) (loc : Actor → ℚ × ℚ) :
    List (Actor × CellCoord) → List (CellCoord × List Actor) →
    List (Actor × CellCoord) × List (CellCoord × List Actor)
  | [], g => ([], g)
  | (a, prev) :: rest, g =>
    let newCell := cellOf bias cellSize (loc a)
    let tail := prepareGo bias cellSize loc rest (prepStepCells a prev newCell g)
    ((a, prepStepCache prev newCell) :: tail.1, tail.2)

/-- Embeds `UNebularReplicationGraphNode_PrecomputedVisibilityGrid2D::PrepareForReplication`
(lines 1039-1100).  `loc` embeds `DynamicActor->GetActorLocation()` (the
actor's current world position, written into the global replication info). -/
def prepareForReplication_PVS (bias : ℚ × ℚ) (cellSize : ℚ) (loc : Actor → ℚ × ℚ)
    (st : PVSNodeState) : PVSNodeState :=
  let out := prepareGo bias cellSize loc st.dynamicSpatializedActors st.gridCells
  ⟨out.1, out.2⟩

/-- The visible-cell list shared by every key of the generated PVS table:
the source stores `{(0,0), (0,1), (0,2), (0,3), (0,4)}` for all 49 keys. -/
def pvsVisibleColumn : List CellCoord := [(0, 0), (0, 1), (0, 2), (0, 3), (0, 4)]

/-- Embeds `UNebularReplicationGraphNode_PrecomputedVisibilityGrid2D::GenerateLookupTable`
(lines 1157-1242): the hand-authored test table over the 7x7 grid, added in
source order; every key maps to `pvsVisibleColumn`. -/
def generateLookupTable : List (CellCoord × List CellCoord) :=
  [ ((0, 0), pvsVisibleColumn), ((0, 1), pvsVisibleColumn), ((0, 2), pvsVisibleColumn),
    ((0, 3), pvsVisibleColumn), ((0, 4), pvsVisibleColumn), ((0, 5), pvsVisibleColumn),
    ((0, 6), pvsVisibleColumn),
    ((1, 0), pvsVisibleColumn), ((1, 1), pvsVisibleColumn), ((1, 2), pvsVisibleColumn),
    ((1, 3), pvsVisibleColumn), ((1, 4), pvsVisibleColumn), ((1, 5), pvsVisibleColumn),
    ((1, 6), pvsVisibleColumn),
    ((2, 0), pvsVisibleColumn), ((2, 1), pvsVisibleColumn), ((2, 2), pvsVisibleColumn),
    ((2, 3), pvsVisibleColumn), ((2, 4), pvsVisibleColumn), ((2, 5), pvsVisibleColumn),
    ((2, 6), pvsVisibleColumn),
    ((3, 0), pvsVisibleColumn), ((3, 1), pvsVisibleColumn), ((3, 2), pvsVisibleColumn),
    ((3, 3), pvsVisibleColumn), ((3, 4), pvsVisibleColumn), ((3, 5), pvsVisibleColumn),
    ((3, 6), pvsVisibleColumn),
    ((4, 0), pvsVisibleColumn), ((4, 1), pvsVisibleColumn), ((4, 2), pvsVisibleColumn),
    ((4, 3), pvsVisibleColumn), ((4, 4), pvsVisibleColumn), ((4, 5), pvsVisibleColumn),
    ((4, 6), pvsVisibleColumn),
    ((5, 0), pvsVisibleColumn), ((5, 1), pvsVisibleColumn), ((5, 2), pvsVisibleColumn),
    ((5, 3), pvsVisibleColumn), ((5, 4), pvsVisibleColumn), ((5, 5), pvsVisibleColumn),
    ((5, 6), pvsVisibleColumn),
    ((6, 0), pvsVisibleColumn), ((6, 1), pvsVisibleColumn), ((6, 2), pvsVisibleColumn),
    ((6, 3), pvsVisibleColumn), ((6, 4), pvsVisibleColumn), ((6, 5), pvsVisibleColumn),
    ((6, 6), pvsVisibleColumn) ]

/-- Embeds `UNebularReplicationGraphNode_PrecomputedVisibilityGrid2D::GatherActorListsForConnection`
(lines 1107-1130): when the connection has a view target, compute its cell
from its world location, look the cell up in the PVS table, and append the
dynamic actor list of every visible cell; a missing view target or a missing
table entry contributes nothing.  The function reads but never modifies any
actor list, so its output is a function of the node state alone, independent
of the order in which connections are gathered. -/
def gatherActorListsForConnection_PVS (bias : ℚ × ℚ) (cellSize : ℚ)
    (table : List (CellCoord × List CellCoord)) (worldLoc : Actor → ℚ × ℚ)
    (viewTarget : Option Actor) (st : PVSNodeState) : List Actor :=
  match viewTarget with
  | none => []
  | some vt =>
    match assocFind (cellOf bias cellSize (worldLoc vt)) table with
    | none => []
    | some visibleCells =>
      visibleCells.foldl (fun acc c => acc ++ cellList st.gridCells c) []

/-- Follows the specification's words, for comparison with the gather above:
"look up the list of visible cells, and union the entities from every one of
those cells into the output", with a missing entry meaning "nothing
visible". -/
def pvsGatherSpecUnion (bias : ℚ × ℚ) (cellSize : ℚ)
    (table : List (CellCoord × List CellCoord)) (worldLoc : Actor → ℚ × ℚ)
    (vt : Actor) (st : PVSNodeState) : List Actor :=
  (((assocFind (cellOf bias cellSize (worldLoc vt)) table).getD []).map
    (cellList st.gridCells)).flatten

/-- Cell index formula as the specification states it:
`floor((pos - bias) / cellSize)` componentwise. -/
def specFloorCell (bias : ℚ × ℚ) (cellSize : ℚ) (pos : ℚ × ℚ) : CellCoord :=
  (⌊(pos.1 - bias.1) / cellSize⌋, ⌊(pos.2 - bias.2) / cellSize⌋)

/-- One entry of `Params.Viewers` as
`UNebulaReplicationGraphNode_AlwaysRelevant_ForConnection::GatherActorListsForConnection`
reads it: the viewer (`InViewer`), the view target, whether the viewer casts
to `ANebulaPlayerController`, the controller's `PlayerState` (if any), and the
controller's pawn when it casts to `ANebulaCharacter`. -/
structure FNetViewerM where
  inViewer : Actor
  viewTarget : Actor
  isNebulaPC : Bool
  playerState : Option Actor
  nebulaPawn : Option Actor
deriving DecidableEq, Repr

/-- Per-viewer body of the loop at lines 800-842 of
`UNebulaReplicationGraphNode_AlwaysRelevant_ForConnection::GatherActorListsForConnection`.
`FActorRepListRefView::ConditionalAdd` only checks actor validity before
appending (all embedded actors are valid), so it is embedded as append.
The `UpdateCachedRelevantActor` calls touch only the timeout bookkeeping map,
not the gathered list, and are not embedded. -/
def gatherViewerStep (connectionOrderNum replicationFrameNum : ℕ)
    (l : List Actor) (v : FNetViewerM) : List Actor :=
  let l1 := l ++ [v.inViewer, v.viewTarget]
  if v.isNebulaPC then
    let l2 :=
      if connectionOrderNum % 2 = replicationFrameNum % 2 then
        match v.playerState with
        | some ps => l1 ++ [ps]
        | none => l1
      else l1
    match v.nebulaPawn with
    | some p => if p ≠ v.viewTarget then l2 ++ [p] else l2
    | none => l2
  else l1

/-- The `ReplicationActorList` rebuilt by
`UNebulaReplicationGraphNode_AlwaysRelevant_ForConnection::GatherActorListsForConnection`
(lines 794-898): the list is `Reset()` and refilled from the connection's
viewers each frame; the player state is appended only when
`ConnectionOrderNum % 2 == ReplicationFrameNum % 2` (the 50% throttle).
The streaming-level lists the node additionally forwards are separate,
persistent lists owned by the graph and are modelled separately. -/
def gatherAlwaysRelevantForConnection (connectionOrderNum replicationFrameNum : ℕ)
    (viewers : List FNetViewerM) : List Actor :=
  viewers.foldl (gatherViewerStep connectionOrderNum replicationFrameNum) []

/-- Embeds the bucket-building loop of
`UNebulaReplicationGraphNode_PlayerStateFrequencyLimiter::PrepareForReplication`
(lines 948-963): scan the eligible player states in order, filling `current`
until it holds `targetActorsPerFrame` actors, then starting a new list. -/
def bucketizePlayerStates (targetActorsPerFrame : ℕ) :
    List Actor → List Actor → List (List Actor)
  | [], current => [current]
  | ps :: rest, current =>
    if targetActorsPerFrame ≤ current.length then
      current :: bucketizePlayerStates targetActorsPerFrame rest [ps]
    else bucketizePlayerStates targetActorsPerFrame rest (current ++ [ps])

/-- Embeds `UNebulaReplicationGraphNode_PlayerStateFrequencyLimiter::PrepareForReplication`
(lines 937-964): the bucket lists are rebuilt from scratch; one default list
is added before the scan, so the result always holds at least one list.
`playerStates` is the iteration order of live player states that pass
`IsActorValidForReplicationGather` (the source's filter). -/
def prepareForReplication_Freq (targetActorsPerFrame : ℕ)
    (playerStates : List Actor) : List (List Actor) :=
  bucketizePlayerStates targetActorsPerFrame playerStates []

/-- Embeds `UNebulaReplicationGraphNode_PlayerStateFrequencyLimiter::GatherActorListsForConnection`
(lines 966-975): forward bucket `ReplicationFrameNum % ReplicationActorLists.Num()`,
plus the force-update list when it is non-empty. -/
def gatherActorListsForConnection_Freq (replicationFrameNum : ℕ)
    (lists : List (List Actor)) (forceList : List Actor) : List (List Actor) :=
  lists.getD (replicationFrameNum % lists.length) []
    :: (if 0 < forceList.length then [forceList] else [])

/-- State of one `UNebulaReplicationGraphNode_AlwaysRelevant_ForConnection`:
its transient `ReplicationActorList` and its
`AlwaysRelevantStreamingLevelsNeedingReplication` set. -/
structure AlwaysRelevantConnState where
  replicationActorList : List Actor
  alwaysRelevantStreamingLevelsNeedingReplication : List LevelName
deriving DecidableEq, Repr

/-- Embeds `UNebulaReplicationGraphNode_AlwaysRelevant_ForConnection::ResetGameWorldState`
(lines 788-792): both lists are emptied. -/
def resetGameWorldState_Conn (_s : AlwaysRelevantConnState) : AlwaysRelevantConnState :=
  ⟨[], []⟩

/-- Graph-level state touched by routing, reset and the class caches:
the `AlwaysRelevantStreamingLevelActors` map, the flat always-relevant list
(`AlwaysRelevantNode`, a `UReplicationGraphNode_ActorList`), the PVS grid
node, the three sub-lists of the `GridNode` spatialization node, the
per-connection nodes of current and pending connections, and the two
world-independent caches `ClassRepNodePolicies` and `ExplicitlySetClasses`. -/
structure NebulaGraphState where
  alwaysRelevantStreamingLevelActors : List (LevelName × List Actor)
  alwaysRelevantList : List Actor
  pvsNode : PVSNodeState
  gridStaticActors : List Actor
  gridDynamicActors : List Actor
  gridDormancyActors : List Actor
  connections : List AlwaysRelevantConnState
  pendingConnections : List AlwaysRelevantConnState
  classRepNodePolicies : List (UClassM × EClassRepNodeMapping)
  explicitlySetClasses : List UClassM
deriving DecidableEq, Repr

/-- Embeds `UNebulaReplicationGraph::ResetGameWorldState` (lines 243-270):
empty the streaming-level map and reset every current and pending
connection's always-relevant node.  `Super::ResetGameWorldState` (engine
code) cannot touch the derived-class fields.  The class caches are not
written. -/
def resetGameWorldState (st : NebulaGraphState) : NebulaGraphState :=
  { st with
    alwaysRelevantStreamingLevelActors := []
    connections := st.connections.map resetGameWorldState_Conn
    pendingConnections := st.pendingConnections.map resetGameWorldState_Conn }

/-- Embeds `FindOrAdd` followed by `ConditionalAdd` on
`AlwaysRelevantStreamingLevelActors` in `RouteAddNetworkActorToNodes`. -/
def streamingLevelAdd (lvl : LevelName) (a : Actor) :
    List (LevelName × List Actor) → List (LevelName × List Actor)
  | [] => [(lvl, [a])]
  | (n, l) :: rest =>
    if n = lvl then (n, l ++ [a]) :: rest else (n, l) :: streamingLevelAdd lvl a rest

/-- Replace a level's list in the streaming-level map (writing through the
reference returned by `FindChecked`). -/
def streamingLevelSet (lvl : LevelName) (l2 : List Actor) :
    List (LevelName × List Actor) → List (LevelName × List Actor)
  | [] => []
  | (n, l) :: rest =>
    if n = lvl then (n, l2) :: rest else (n, l) :: streamingLevelSet lvl l2 rest

/-- Embeds `FActorRepListRefView::RemoveFast` (engine `RemoveAtSwap`): when
the actor is present, the last element is swapped into its slot and the list
shrinks by one; `none` when the actor is not in the list. -/
def removeFastList (a : Actor) (l : List Actor) : Option (List Actor) :=
  match l.findIdx? (· = a) with
  | none => none
  | some i => some ((l.set i (l.getLastD a)).dropLast)

/-- Embeds `UNebulaReplicationGraph::RouteAddNetworkActorToNodes`
(lines 661-712), dispatching on the policy returned by `GetMappingPolicy`.
Engine node insertions (`NotifyAddNetworkActor` on the flat list node and the
`AddActor_*` calls on the grid node) are embedded as list appends. -/
def routeAddNetworkActorToNodes (policy : EClassRepNodeMapping) (a : Actor)
    (streamingLevelName : Option LevelName) (st : NebulaGraphState) : NebulaGraphState :=
  match policy with
  | .NotRouted => st
  | .PrecomputedVisibility => { st with pvsNode := addActorInternal_Dynamic a st.pvsNode }
  | .RelevantAllConnections =>
    match streamingLevelName with
    | none => { st with alwaysRelevantList := st.alwaysRelevantList ++ [a] }
    | some lvl =>
      { st with alwaysRelevantStreamingLevelActors :=
          streamingLevelAdd lvl a st.alwaysRelevantStreamingLevelActors }
  | .Spatialize_Static => { st with gridStaticActors := st.gridStaticActors ++ [a] }
  | .Spatialize_Dynamic => { st with gridDynamicActors := st.gridDynamicActors ++ [a] }
  | .Spatialize_Dormancy => { st with gridDormancyActors := st.gridDormancyActors ++ [a] }

/-- Embeds `UNebulaReplicationGraph::RouteRemoveNetworkActorToNodes`
(lines 714-773).  The result is `none` when the source hits a fatal check:
`AlwaysRelevantStreamingLevelActors.FindChecked(LevelName)` asserts when the
level has no list at all.  Otherwise `some (warned, newState)`: `warned` is
true when the source logs a warning on this path (the `RemoveFast` failure
warning at line 746; the unconditional removal log of the PVS node at line
1154; the engine list nodes' warn-if-not-found removals).
`SetActorDestructionInfoToIgnoreDistanceCulling` touches only destruction
bookkeeping and is not embedded. -/
def routeRemoveNetworkActorToNodes (policy : EClassRepNodeMapping) (a : Actor)
    (streamingLevelName : Option LevelName) (st : NebulaGraphState) :
    Option (Bool × NebulaGraphState) :=
  match policy with
  | .NotRouted => some (false, st)
  | .PrecomputedVisibility =>
    some (true, { st with pvsNode := removeActorInternal_Dynamic a st.pvsNode })
  | .RelevantAllConnections =>
    match streamingLevelName with
    | none =>
      some (decide (a ∉ st.alwaysRelevantList),
        { st with alwaysRelevantList := st.alwaysRelevantList.erase a })
    | some lvl =>
      match assocFind lvl st.alwaysRelevantStreamingLevelActors with
      | none => none
      | some l =>
        match removeFastList a l with
        | none => some (true, st)
        | some l2 =>
          let m2 := streamingLevelSet lvl l2 st.alwaysRelevantStreamingLevelActors
          some (false, { st with alwaysRelevantStreamingLevelActors := m2 })
  | .Spatialize_Static =>
    some (decide (a ∉ st.gridStaticActors),
      { st with gridStaticActors := st.gridStaticActors.erase a })
  | .Spatialize_Dynamic =>
    some (decide (a ∉ st.gridDynamicActors),
      { st with gridDynamicActors := st.gridDynamicActors.erase a })
  | .Spatialize_Dormancy =>
    some (decide (a ∉ st.gridDormancyActors),
      { st with gridDormancyActors := st.gridDormancyActors.erase a })

/-- A graph state with nothing registered, used for concrete instances. -/
def emptyGraphState : NebulaGraphState := ⟨[], [], pvsInit, [], [], [], [], [], [], []⟩

/-- A blueprint-style child of the character stand-in with an explicit
class-policy table entry of its own. -/
def classBlueprintPawn : UClassM := .child classACharacter traitsPawnLike false

/-- Policy table holding an explicit entry only for `classBlueprintPawn`. -/
def policiesExplicit : UClassM → Option EClassRepNodeMapping :=
  fun c => if c = classBlueprintPawn then some .NotRouted else none

/-- A non-replicated root class. -/
def classGhostParent : UClassM := .root traitsOff false

/-- A non-replicated child of `classGhostParent` with identical traits. -/
def classGhost : UClassM := .child classGhostParent traitsOff false

/-- Policy table holding an explicit entry only for `classGhostParent`. -/
def policiesParentOnly : UClassM → Option EClassRepNodeMapping :=
  fun c => if c = classGhostParent then some .RelevantAllConnections else none

/-- Well-formedness of one `DynamicSpatializedActors` entry against the grid:
the actor occurs once in its cached cell (when the cache is valid) and
nowhere else; an invalid cache means the actor is in no cell. -/
def WFentry (g : List (CellCoord × List Actor)) (e : Actor × CellCoord) : Prop :=
  ∀ c, (cellList g c).count e.1 = if e.2.1 ≠ -1 ∧ c = e.2 then 1 else 0

/-- Well-formedness of the whole PVS node state: distinct tracked actors, and
every tracked entry is well-formed against the grid. -/
def pvsWF (st : PVSNodeState) : Prop :=
  (st.dynamicSpatializedActors.map Prod.fst).Nodup ∧
  ∀ e ∈ st.dynamicSpatializedActors, WFentry st.gridCells e

/-- A sequence of per-tick preparation passes, each reading the actors'
world positions through its own location function (the positions current at
that tick). -/
def prepareSeq (bias : ℚ × ℚ) (cellSize : ℚ) (locs : List (Actor → ℚ × ℚ))
    (st : PVSNodeState) : PVSNodeState :=
  locs.foldl (fun s l => prepareForReplication_PVS bias cellSize l s) st

/-!  Theorems. -/

/-- C1 counterexample: the key cell (0, 5) is present in the generated PVS
lookup table, but its stored visible-cell list (the fixed column list) does
not contain (0, 5) itself — so not every key of the table has a self-visible
entry. -/
theorem pvs_lookup_self_visibility_cex :
    assocFind ((0 : ℤ), (5 : ℤ)) generateLookupTable = some pvsVisibleColumn ∧
    ((0 : ℤ), (5 : ℤ)) ∉ pvsVisibleColumn := by
  exact ⟨by decide, by decide⟩

/-- C1 amended: every key of the lookup table built by `GenerateLookupTable`
stores the same fixed visible-cell list {(0,0),(0,1),(0,2),(0,3),(0,4)};
consequently a key cell contains itself in its stored list exactly when the
key is one of (0,0)..(0,4). -/
theorem pvs_lookup_table_rows_fixed :
    ∀ e ∈ generateLookupTable,
      e.2 = pvsVisibleColumn ∧
      (e.1 ∈ e.2 ↔ e.1.1 = 0 ∧ 0 ≤ e.1.2 ∧ e.1.2 ≤ 4) := by
  decide

/-- C1 amended, witnessed at the concrete table entry for key (0, 0). -/
theorem pvs_lookup_table_rows_fixed_witness :
    ((((0 : ℤ), (0 : ℤ)), pvsVisibleColumn) ∈ generateLookupTable) ∧
    (pvsVisibleColumn = pvsVisibleColumn ∧
      ((((0 : ℤ), (0 : ℤ))) ∈ pvsVisibleColumn ↔
        (0 : ℤ) = 0 ∧ (0 : ℤ) ≤ 0 ∧ (0 : ℤ) ≤ 4)) :=
  ⟨by decide, pvs_lookup_table_rows_fixed (((0 : ℤ), (0 : ℤ)), pvsVisibleColumn) (by decide)⟩

/-- C5: with per-list capacity 3 and seven eligible player states, the
frequency limiter's prepare step builds exactly the three lists of sizes
3, 3, 1 in scan order, and the gather step at frames 0, 1, 2, 3 forwards
buckets 0, 1, 2, 0 (frame number modulo the number of lists), with the
force-update list appended only when non-empty. -/
theorem playerstate_freq_limiter_buckets (a₁ a₂ a₃ a₄ a₅ a₆ a₇ : Actor)
    (force : List Actor) :
    prepareForReplication_Freq 3 [a₁, a₂, a₃, a₄, a₅, a₆, a₇] =
      [[a₁, a₂, a₃], [a₄, a₅, a₆], [a₇]] ∧
    gatherActorListsForConnection_Freq 0 [[a₁, a₂, a₃], [a₄, a₅, a₆], [a₇]] force =
      [a₁, a₂, a₃] :: (if 0 < force.length then [force] else []) ∧
    gatherActorListsForConnection_Freq 1 [[a₁, a₂, a₃], [a₄, a₅, a₆], [a₇]] force =
      [a₄, a₅, a₆] :: (if 0 < force.length then [force] else []) ∧
    gatherActorListsForConnection_Freq 2 [[a₁, a₂, a₃], [a₄, a₅, a₆], [a₇]] force =
      [a₇] :: (if 0 < force.length then [force] else []) ∧
    gatherActorListsForConnection_Freq 3 [[a₁, a₂, a₃], [a₄, a₅, a₆], [a₇]] force =
      [a₁, a₂, a₃] :: (if 0 < force.length then [force] else []) := by
  refine ⟨rfl, rfl, rfl, rfl, ?_⟩
  simp [gatherActorListsForConnection_Freq]

/-- The bucket-building loop never returns an empty array of lists: the
trailing `[current]` always contributes one list. -/
theorem bucketizePlayerStates_ne_nil (cap : ℕ) :
    ∀ (l cur : List Actor), bucketizePlayerStates cap l cur ≠ [] := by
  intro l
  induction l with
  | nil => intro cur; simp [bucketizePlayerStates]
  | cons ps rest ih =>
    intro cur
    unfold bucketizePlayerStates
    split
    · simp [ih]
    · exact ih (cur ++ [ps])

/-- C10: the player-state frequency limiter's prepare step always produces at
least one bucket list (a default list is added before the scan, so even zero
eligible player states yield one empty list), hence the gather step's index
`frame % lists.length` is a modulo by a positive number and always denotes a
valid list position. -/
theorem freq_limiter_gather_index_safe (cap frame : ℕ) (playerStates : List Actor) :
    0 < (prepareForReplication_Freq cap playerStates).length ∧
    frame % (prepareForReplication_Freq cap playerStates).length <
      (prepareForReplication_Freq cap playerStates).length := by
  have h : (prepareForReplication_Freq cap playerStates).length ≠ 0 := by
    intro hlen
    exact bucketizePlayerStates_ne_nil cap playerStates [] (List.length_eq_zero.mp hlen)
  have hpos : 0 < (prepareForReplication_Freq cap playerStates).length := Nat.pos_of_ne_zero h
  exact ⟨hpos, Nat.mod_lt _ hpos⟩

/-- C8: `ResetGameWorldState` empties the always-relevant streaming-level
actor map and, for every current and pending connection, the per-connection
node's replication list and its set of streaming levels needing replication,
while the class-to-policy cache and the explicitly-set class list are left
unchanged. -/
theorem reset_game_world_state_effect (st : NebulaGraphState) :
    resetGameWorldState st =
      { st with
        alwaysRelevantStreamingLevelActors := []
        connections := st.connections.map (fun _ => ⟨[], []⟩)
        pendingConnections := st.pendingConnections.map (fun _ => ⟨[], []⟩) } ∧
    (resetGameWorldState st).classRepNodePolicies = st.classRepNodePolicies ∧
    (resetGameWorldState st).explicitlySetClasses = st.explicitlySetClasses :=
  ⟨rfl, rfl, rfl⟩

/-- C4: for the per-connection always-relevant node, the connection's player
state is in the rebuilt `ReplicationActorList` exactly on frames where
`(ConnectionOrderNum + ReplicationFrameNum) % 2 == 0` — the source's
condition `ConnectionOrderNum % 2 == ReplicationFrameNum % 2` — provided the
player state is distinct from the viewer, the view target and the pawn
(which are added unconditionally). -/
theorem always_relevant_playerstate_parity (connectionOrderNum replicationFrameNum : ℕ)
    (v : FNetViewerM) (ps : Actor)
    (hpc : v.isNebulaPC = true) (hps : v.playerState = some ps)
    (hviewer : ps ≠ v.inViewer) (htarget : ps ≠ v.viewTarget)
    (hpawn : ∀ p, v.nebulaPawn = some p → ps ≠ p) :
    (ps ∈ gatherAlwaysRelevantForConnection connectionOrderNum replicationFrameNum [v]) ↔
      (connectionOrderNum + replicationFrameNum) % 2 = 0 := by
  have hpar : (connectionOrderNum % 2 = replicationFrameNum % 2) ↔
      (connectionOrderNum + replicationFrameNum) % 2 = 0 := by omega
  unfold gatherAlwaysRelevantForConnection
  simp only [List.foldl_cons, List.foldl_nil]
  unfold gatherViewerStep
  rw [hpc, hps]
  by_cases hc : connectionOrderNum % 2 = replicationFrameNum % 2
  · cases hp : v.nebulaPawn with
    | none => simp [hc, hp, hviewer, htarget, hpar.mp hc]
    | some p =>
      have := hpawn p hp
      by_cases hpv : p = v.viewTarget <;> simp [hc, hp, hpv, hviewer, htarget, this, hpar.mp hc]
  · have h2 : ¬ (connectionOrderNum + replicationFrameNum) % 2 = 0 := fun h => hc (hpar.mpr h)
    cases hp : v.nebulaPawn with
    | none => simp [hc, hp, hviewer, htarget, h2]
    | some p =>
      have := hpawn p hp
      by_cases hpv : p = v.viewTarget <;> simp [hc, hp, hpv, hviewer, htarget, this, h2]

/-- C4 witnessed at connection order number 1, frame 1 (an odd frame, so the
parity condition holds and the player state is gathered). -/
theorem always_relevant_playerstate_parity_witness :
    ((⟨1, 2, true, some 3, some 4⟩ : FNetViewerM).isNebulaPC = true) ∧
    ((⟨1, 2, true, some 3, some 4⟩ : FNetViewerM).playerState = some 3) ∧
    ((3 : Actor) ≠ 1) ∧ ((3 : Actor) ≠ 2) ∧
    (∀ p, (⟨1, 2, true, some 3, some 4⟩ : FNetViewerM).nebulaPawn = some p → (3 : Actor) ≠ p) ∧
    ((3 ∈ gatherAlwaysRelevantForConnection 1 1 [⟨1, 2, true, some 3, some 4⟩]) ↔
      (1 + 1) % 2 = 0) :=
  ⟨rfl, rfl, by decide, by decide, fun p hp => by injection hp with h; subst h; decide,
    always_relevant_playerstate_parity 1 1 ⟨1, 2, true, some 3, some 4⟩ 3 rfl rfl
      (by decide) (by decide) (fun p hp => by injection hp with h; subst h; decide)⟩

/-- C6 counterexample: three concrete classes whose traits are bit-identical
to their parent's, yet `GetClassNodeMapping` resolves them differently from
their parent.  (1) `ANebulaCharacter` itself: the character-subclass special
case fires for it but not for its parent.  (2) a class with an explicit
table entry different from its parent's resolution.  (3) a non-replicated
class whose parent has an explicit entry: the not-replicated check precedes
the identical-parent-traits delegation. -/
theorem class_policy_parent_traits_cex :
    (UClassM.traits classNebulaCharacter = UClassM.traits classACharacter ∧
      getClassNodeMapping emptyPolicies classNebulaCharacter ≠
        getClassNodeMapping emptyPolicies classACharacter) ∧
    (UClassM.traits classBlueprintPawn = UClassM.traits classACharacter ∧
      getClassNodeMapping policiesExplicit classBlueprintPawn ≠
        getClassNodeMapping policiesExplicit classACharacter) ∧
    (UClassM.traits classGhost = UClassM.traits classGhostParent ∧
      getClassNodeMapping policiesParentOnly classGhost ≠
        getClassNodeMapping policiesParentOnly classGhostParent) := by
  refine ⟨⟨rfl, ?_⟩, ⟨rfl, ?_⟩, ⟨rfl, ?_⟩⟩ <;> decide

/-- C6 amended: for every class with no explicit entry in the class-policy
table, not derived from `ANebulaCharacter`, whose replicated flag is set and
whose relevancy traits are bit-identical to its immediate parent's,
`GetClassNodeMapping` returns the parent's resolution unchanged. -/
theorem class_policy_parent_traits_inherit
    (policies : UClassM → Option EClassRepNodeMapping) (p : UClassM)
    (t : ActorTraits) (b : Bool)
    (hexp : policies (.child p t b) = none)
    (hchar : (UClassM.child p t b).isChildOfNebulaCharacter = false)
    (hrep : t.bReplicated = true)
    (htraits : p.traits = t) :
    getClassNodeMapping policies (.child p t b) = getClassNodeMapping policies p := by
  conv_lhs => rw [getClassNodeMapping]
  rw [hexp, hchar, hrep, htraits]
  simp

/-- C6 amended, witnessed at a replicated child of `classACharacter` with
identical traits and no explicit table entry. -/
theorem class_policy_parent_traits_inherit_witness :
    emptyPolicies (.child classACharacter traitsPawnLike false) = none ∧
    (UClassM.child classACharacter traitsPawnLike false).isChildOfNebulaCharacter = false ∧
    traitsPawnLike.bReplicated = true ∧
    classACharacter.traits = traitsPawnLike ∧
    getClassNodeMapping emptyPolicies (.child classACharacter traitsPawnLike false) =
      getClassNodeMapping emptyPolicies classACharacter :=
  ⟨rfl, rfl, rfl, rfl,
    class_policy_parent_traits_inherit emptyPolicies classACharacter traitsPawnLike false
      rfl rfl rfl rfl⟩

/-- C9: every class derived from `ANebulaCharacter` with no explicit entry in
the class-policy table resolves to `PrecomputedVisibility` — whatever its
traits, since the subclass check precedes the replicated-class check and the
trait-based resolution — and an add-routing event with that resolved policy
inserts the actor into the PVS grid node's dynamic actor map and changes
nothing else. -/
theorem nebula_character_routes_to_pvs
    (policies : UClassM → Option EClassRepNodeMapping) (c : UClassM)
    (hexp : policies c = none) (hchar : c.isChildOfNebulaCharacter = true) :
    getClassNodeMapping policies c = .PrecomputedVisibility ∧
    ∀ (a : Actor) (lvl : Option LevelName) (st : NebulaGraphState),
      routeAddNetworkActorToNodes (getClassNodeMapping policies c) a lvl st =
        { st with pvsNode := addActorInternal_Dynamic a st.pvsNode } := by
  have h1 : getClassNodeMapping policies c = .PrecomputedVisibility := by
    cases c with
    | root t b => simp [getClassNodeMapping, hexp, hchar]
    | child p t b => simp [getClassNodeMapping, hexp, hchar]
  exact ⟨h1, fun a lvl st => by rw [h1]; rfl⟩

/-- C9 witnessed at the `ANebulaCharacter` class itself with an empty
class-policy table. -/
theorem nebula_character_routes_to_pvs_witness :
    emptyPolicies classNebulaCharacter = none ∧
    classNebulaCharacter.isChildOfNebulaCharacter = true ∧
    (getClassNodeMapping emptyPolicies classNebulaCharacter = .PrecomputedVisibility ∧
     ∀ (a : Actor) (lvl : Option LevelName) (st : NebulaGraphState),
       routeAddNetworkActorToNodes (getClassNodeMapping emptyPolicies classNebulaCharacter) a lvl st =
         { st with pvsNode := addActorInternal_Dynamic a st.pvsNode }) :=
  ⟨rfl, rfl, nebula_character_routes_to_pvs emptyPolicies classNebulaCharacter rfl rfl⟩

/-- Folding list appends over the visible cells equals the flattened map:
the gathered output is precisely the concatenation of the listed cells'
contents. -/
theorem foldl_append_cellLists (g : List (CellCoord × List Actor)) :
    ∀ (cs : List CellCoord) (init : List Actor),
      cs.foldl (fun acc c => acc ++ cellList g c) init =
        init ++ (cs.map (cellList g)).flatten := by
  intro cs
  induction cs with
  | nil => intro init; simp
  | cons c rest ih => intro init; simp [ih, List.append_assoc]

/-- C2: for a connection with a valid view target, the PVS grid node's gather
computes the view target's cell and outputs exactly the concatenated union of
the dynamic actor lists of the cells the PVS table stores under that cell
key; when the key is absent, the gather contributes nothing (and nothing
fails).  The gather reads the node state and mutates no actor list, so this
output is independent of the order in which connections are gathered. -/
theorem pvs_gather_is_visible_cells_union (bias : ℚ × ℚ) (cellSize : ℚ)
    (table : List (CellCoord × List CellCoord)) (worldLoc : Actor → ℚ × ℚ)
    (viewTarget : Option Actor) (vt : Actor) (st : PVSNodeState)
    (hvt : viewTarget = some vt) :
    gatherActorListsForConnection_PVS bias cellSize table worldLoc viewTarget st =
      pvsGatherSpecUnion bias cellSize table worldLoc vt st ∧
    (assocFind (cellOf bias cellSize (worldLoc vt)) table = none →
      gatherActorListsForConnection_PVS bias cellSize table worldLoc viewTarget st = []) := by
  subst hvt
  cases hfind : assocFind (cellOf bias cellSize (worldLoc vt)) table with
  | none =>
    constructor
    · simp [gatherActorListsForConnection_PVS, pvsGatherSpecUnion, hfind]
    · intro _
      simp [gatherActorListsForConnection_PVS, hfind]
  | some visibleCells =>
    constructor
    · simpa [gatherActorListsForConnection_PVS, pvsGatherSpecUnion, hfind] using
        foldl_append_cellLists st.gridCells visibleCells []
    · intro h
      cases h

/-- C2, witnessed on the specification's own test vector: the table maps cell
(2, 3) to visible cells {(2, 3), (2, 4)}, and the view target's location
falls in cell (2, 3). -/
theorem pvs_gather_is_visible_cells_union_witness :
    (some (7 : Actor) = some (7 : Actor)) ∧
    (gatherActorListsForConnection_PVS ((0 : ℚ), (0 : ℚ)) 1
        [(((2 : ℤ), (3 : ℤ)), [((2 : ℤ), (3 : ℤ)), ((2 : ℤ), (4 : ℤ))])]
        (fun _ => ((5 / 2 : ℚ), (7 / 2 : ℚ))) (some 7)
        ⟨[(10, (2, 3)), (11, (2, 4)), (99, (9, 9))],
          [(((2 : ℤ), (3 : ℤ)), [10]), (((2 : ℤ), (4 : ℤ)), [11]), (((9 : ℤ), (9 : ℤ)), [99])]⟩ =
      pvsGatherSpecUnion ((0 : ℚ), (0 : ℚ)) 1
        [(((2 : ℤ), (3 : ℤ)), [((2 : ℤ), (3 : ℤ)), ((2 : ℤ), (4 : ℤ))])]
        (fun _ => ((5 / 2 : ℚ), (7 / 2 : ℚ))) 7
        ⟨[(10, (2, 3)), (11, (2, 4)), (99, (9, 9))],
          [(((2 : ℤ), (3 : ℤ)), [10]), (((2 : ℤ), (4 : ℤ)), [11]), (((9 : ℤ), (9 : ℤ)), [99])]⟩ ∧
      (assocFind (cellOf ((0 : ℚ), (0 : ℚ)) 1 ((5 / 2 : ℚ), (7 / 2 : ℚ)))
          [(((2 : ℤ), (3 : ℤ)), [((2 : ℤ), (3 : ℤ)), ((2 : ℤ), (4 : ℤ))])] = none →
        gatherActorListsForConnection_PVS ((0 : ℚ), (0 : ℚ)) 1
          [(((2 : ℤ), (3 : ℤ)), [((2 : ℤ), (3 : ℤ)), ((2 : ℤ), (4 : ℤ))])]
          (fun _ => ((5 / 2 : ℚ), (7 / 2 : ℚ))) (some 7)
          ⟨[(10, (2, 3)), (11, (2, 4)), (99, (9, 9))],
            [(((2 : ℤ), (3 : ℤ)), [10]), (((2 : ℤ), (4 : ℤ)), [11]), (((9 : ℤ), (9 : ℤ)), [99])]⟩ = [])) :=
  ⟨rfl, pvs_gather_is_visible_cells_union ((0 : ℚ), (0 : ℚ)) 1
    [(((2 : ℤ), (3 : ℤ)), [((2 : ℤ), (3 : ℤ)), ((2 : ℤ), (4 : ℤ))])]
    (fun _ => ((5 / 2 : ℚ), (7 / 2 : ℚ))) (some 7) 7
    ⟨[(10, (2, 3)), (11, (2, 4)), (99, (9, 9))],
      [(((2 : ℤ), (3 : ℤ)), [10]), (((2 : ℤ), (4 : ℤ)), [11]), (((9 : ℤ), (9 : ℤ)), [99])]⟩ rfl⟩

/-- C7 counterexample: removing a streaming-level-scoped always-relevant
actor whose level has no list at all in `AlwaysRelevantStreamingLevelActors`
hits `TMap::FindChecked`, which is a fatal assertion — so not every
remove-routing event naming an absent entity is non-fatal. -/
theorem route_remove_missing_level_fatal_cex :
    routeRemoveNetworkActorToNodes .RelevantAllConnections 0 (some 0) emptyGraphState =
      none :=
  rfl

/-- `RemoveFast` finds nothing when the actor is not in the list. -/
theorem removeFastList_eq_none (a : Actor) (l : List Actor) (h : a ∉ l) :
    removeFastList a l = none := by
  unfold removeFastList
  have hidx : l.findIdx? (· = a) = none := by
    rw [List.findIdx?_eq_none_iff]
    intro x hx
    rw [decide_eq_false_iff_not]
    rintro rfl
    exact h hx
  rw [hidx]

/-- C7 amended: a remove-routing event naming an entity absent from the
expected list is logged as a warning and leaves the graph state unchanged in
the two source-visible cases — a streaming-level-scoped always-relevant
entity whose level list exists but does not contain it, and a dynamic entity
unknown to the PVS grid node; but when the named streaming level has no list
at all, `FindChecked` makes the removal fatal (see the counterexample). -/
theorem route_remove_absent_actor_noop (st : NebulaGraphState) (a : Actor)
    (lvl : LevelName) (l : List Actor) (lvlOpt : Option LevelName) :
    (assocFind lvl st.alwaysRelevantStreamingLevelActors = some l → a ∉ l →
      routeRemoveNetworkActorToNodes .RelevantAllConnections a (some lvl) st =
        some (true, st)) ∧
    (assocFind a st.pvsNode.dynamicSpatializedActors = none →
      routeRemoveNetworkActorToNodes .PrecomputedVisibility a lvlOpt st =
        some (true, st)) := by
  constructor
  · intro hfind hmem
    simp [routeRemoveNetworkActorToNodes, hfind, removeFastList_eq_none a l hmem]
  · intro hnone
    have h1 : removeActorInternal_Dynamic a st.pvsNode = st.pvsNode := by
      unfold removeActorInternal_Dynamic
      rw [hnone]
    unfold routeRemoveNetworkActorToNodes
    rw [h1]

/-- C7 amended, witnessed on a graph whose streaming level 5 holds only actor
1 and whose PVS node tracks nothing: removing actor 0 warns and leaves the
state unchanged on both paths. -/
theorem route_remove_absent_actor_noop_witness :
    (assocFind 5 ({ emptyGraphState with
        alwaysRelevantStreamingLevelActors := [(5, [1])] } :
          NebulaGraphState).alwaysRelevantStreamingLevelActors = some [1]) ∧
    ((0 : Actor) ∉ [(1 : Actor)]) ∧
    (assocFind (0 : Actor) ({ emptyGraphState with
        alwaysRelevantStreamingLevelActors := [(5, [1])] } :
          NebulaGraphState).pvsNode.dynamicSpatializedActors = none) ∧
    (routeRemoveNetworkActorToNodes .RelevantAllConnections 0 (some 5)
        { emptyGraphState with alwaysRelevantStreamingLevelActors := [(5, [1])] } =
      some (true, { emptyGraphState with
        alwaysRelevantStreamingLevelActors := [(5, [1])] })) ∧
    (routeRemoveNetworkActorToNodes .PrecomputedVisibility 0 none
        { emptyGraphState with alwaysRelevantStreamingLevelActors := [(5, [1])] } =
      some (true, { emptyGraphState with
        alwaysRelevantStreamingLevelActors := [(5, [1])] })) :=
  ⟨rfl, by decide, rfl,
    (route_remove_absent_actor_noop
      { emptyGraphState with alwaysRelevantStreamingLevelActors := [(5, [1])] }
      0 5 [1] none).1 rfl (by decide),
    (route_remove_absent_actor_noop
      { emptyGraphState with alwaysRelevantStreamingLevelActors := [(5, [1])] }
      0 5 [1] none).2 rfl⟩

/-- Looking up a cell after an add: the actor is appended to cell `k`'s list
(created if absent); other cells are unchanged. -/
theorem assocFind_cellsAdd (k : CellCoord) (a : Actor) :
    ∀ (g : List (CellCoord × List Actor)) (c : CellCoord),
      assocFind c (cellsAddDynamicActor k a g) =
        if c = k then some ((assocFind c g).getD [] ++ [a]) else assocFind c g := by
  intro g
  induction g with
  | nil =>
    intro c
    by_cases h : c = k
    · subst h
      simp [cellsAddDynamicActor, assocFind]
    · have h2 : ¬ (k = c) := fun hh => h hh.symm
      simp [cellsAddDynamicActor, assocFind, h, h2]
  | cons e rest ih =>
    obtain ⟨c0, l0⟩ := e
    intro c
    by_cases h1 : c0 = k
    · subst h1
      by_cases h2 : c0 = c
      · subst h2
        simp [cellsAddDynamicActor, assocFind]
      · have h3 : ¬ (c = c0) := fun hh => h2 hh.symm
        simp [cellsAddDynamicActor, assocFind, h2, h3]
    · by_cases h2 : c0 = c
      · subst h2
        simp [cellsAddDynamicActor, assocFind, h1]
      · simp [cellsAddDynamicActor, assocFind, h1, h2, ih c]

/-- Cell contents after an add, stated on `cellList`. -/
theorem cellList_cellsAdd (k : CellCoord) (a : Actor)
    (g : List (CellCoord × List Actor)) (c : CellCoord) :
    cellList (cellsAddDynamicActor k a g) c =
      if c = k then cellList g c ++ [a] else cellList g c := by
  unfold cellList
  rw [assocFind_cellsAdd]
  by_cases h : c = k <;> simp [h]

/-- Looking up a cell after a remove: the actor is erased from cell `k`'s
list when that cell exists; other cells are unchanged. -/
theorem assocFind_cellsRemove (k : CellCoord) (a : Actor) :
    ∀ (g : List (CellCoord × List Actor)) (c : CellCoord),
      assocFind c (cellsRemoveDynamicActor k a g) =
        if c = k then (assocFind c g).map (fun l => l.erase a) else assocFind c g := by
  intro g
  induction g with
  | nil =>
    intro c
    by_cases h : c = k <;> simp [cellsRemoveDynamicActor, assocFind, h]
  | cons e rest ih =>
    obtain ⟨c0, l0⟩ := e
    intro c
    by_cases h1 : c0 = k
    · subst h1
      by_cases h2 : c0 = c
      · subst h2
        simp [cellsRemoveDynamicActor, assocFind]
      · have h3 : ¬ (c = c0) := fun hh => h2 hh.symm
        simp [cellsRemoveDynamicActor, assocFind, h2, h3]
    · by_cases h2 : c0 = c
      · subst h2
        simp [cellsRemoveDynamicActor, assocFind, h1]
      · simp [cellsRemoveDynamicActor, assocFind, h1, h2, ih c]

/-- Cell contents after a remove, stated on `cellList`. -/
theorem cellList_cellsRemove (k : CellCoord) (a : Actor)
    (g : List (CellCoord × List Actor)) (c : CellCoord) :
    cellList (cellsRemoveDynamicActor k a g) c =
      if c = k then (cellList g c).erase a else cellList g c := by
  unfold cellList
  rw [assocFind_cellsRemove]
  by_cases h : c = k
  · subst h
    cases assocFind c g <;> simp
  · simp [h]

/-- Occurrence counts after a cell add. -/
theorem count_cellsAdd (k : CellCoord) (a : Actor) (g : List (CellCoord × List Actor))
    (x : Actor) (c : CellCoord) :
    (cellList (cellsAddDynamicActor k a g) c).count x =
      (cellList g c).count x + (if c = k ∧ x = a then 1 else 0) := by
  rw [cellList_cellsAdd]
  by_cases h1 : c = k
  · by_cases h2 : x = a <;> simp [h1, h2, List.count_append]
  · simp [h1]

/-- Occurrence count of the removed actor after a cell remove. -/
theorem count_cellsRemove_self (k : CellCoord) (a : Actor)
    (g : List (CellCoord × List Actor)) (c : CellCoord) :
    (cellList (cellsRemoveDynamicActor k a g) c).count a =
      (cellList g c).count a - (if c = k then 1 else 0) := by
  rw [cellList_cellsRemove]
  by_cases h1 : c = k
  · simp [h1, List.count_erase_self]
  · simp [h1]

/-- Occurrence counts of other actors are untouched by a cell remove. -/
theorem count_cellsRemove_ne (k : CellCoord) (a : Actor)
    (g : List (CellCoord × List Actor)) (x : Actor) (hx : x ≠ a) (c : CellCoord) :
    (cellList (cellsRemoveDynamicActor k a g) c).count x = (cellList g c).count x := by
  rw [cellList_cellsRemove]
  by_cases h1 : c = k
  · simp [h1, List.count_erase_of_ne hx]
  · simp [h1]

/-- The cached cell written back by one preparation step always equals the
newly computed cell, in all three branches. -/
theorem prepStepCache_eq (prev newCell : CellCoord) :
    prepStepCache prev newCell = newCell := by
  unfold prepStepCache
  by_cases h1 : prev.1 ≠ -1
  · by_cases h2 : prev ≠ newCell
    · rw [if_pos h1, if_pos h2]
    · rw [if_pos h1, if_neg h2]
      exact not_not.mp h2
  · rw [if_neg h1]

/-- After one preparation step for actor `a`, the actor occurs exactly once,
in the newly computed cell, provided its entry was well-formed before. -/
theorem prepStepCells_count_self (g : List (CellCoord × List Actor)) (a : Actor)
    (prev newCell : CellCoord)
    (hWFe : ∀ c, (cellList g c).count a = if prev.1 ≠ -1 ∧ c = prev then 1 else 0) :
    ∀ c, (cellList (prepStepCells a prev newCell g) c).count a =
      if c = newCell then 1 else 0 := by
  intro c
  by_cases h1 : prev.1 ≠ -1
  · by_cases h2 : prev ≠ newCell
    · have hstep : prepStepCells a prev newCell g =
          cellsAddDynamicActor newCell a (cellsRemoveDynamicActor prev a g) := by
        unfold prepStepCells
        rw [if_pos h1, if_pos h2]
      rw [hstep, count_cellsAdd, count_cellsRemove_self, hWFe c]
      by_cases hcp : c = prev
      · by_cases hcn : c = newCell
        · exact absurd (hcp.symm.trans hcn) h2
        · simp [h1, hcp, hcn]
      · by_cases hcn : c = newCell
        · simp [h1, hcp, hcn]
        · simp [h1, hcp, hcn]
    · have hpn : prev = newCell := not_not.mp h2
      have hstep : prepStepCells a prev newCell g = g := by
        unfold prepStepCells
        rw [if_pos h1, if_neg h2]
      rw [hstep, hWFe c]
      subst hpn
      simp [h1]
  · have hstep : prepStepCells a prev newCell g = cellsAddDynamicActor newCell a g := by
      unfold prepStepCells
      rw [if_neg h1]
    have hpv : ¬ (prev.1 ≠ -1 ∧ c = prev) := fun hh => h1 hh.1
    rw [hstep, count_cellsAdd, hWFe c, if_neg hpv]
    simp

/-- One preparation step for actor `a` does not change any other actor's
occurrence counts. -/
theorem prepStepCells_count_ne (g : List (CellCoord × List Actor)) (a : Actor)
    (prev newCell : CellCoord) (x : Actor) (hx : x ≠ a) (c : CellCoord) :
    (cellList (prepStepCells a prev newCell g) c).count x = (cellList g c).count x := by
  unfold prepStepCells
  by_cases h1 : prev.1 ≠ -1
  · by_cases h2 : prev ≠ newCell
    · rw [if_pos h1, if_pos h2, count_cellsAdd, count_cellsRemove_ne prev a g x hx]
      simp [hx]
    · rw [if_pos h1, if_neg h2]
  · rw [if_neg h1, count_cellsAdd]
    simp [hx]

/-- Specification of the per-actor preparation loop: the returned map holds
every tracked actor with its newly computed cell as cache; every returned
entry is well-formed against the returned grid; and the counts of untracked
actors are untouched. -/
theorem prepareGo_spec (bias : ℚ × ℚ) (cs : ℚ) (loc : Actor → ℚ × ℚ) :
    ∀ (L : List (Actor × CellCoord)) (g : List (CellCoord × List Actor)),
      (L.map Prod.fst).Nodup →
      (∀ e ∈ L, WFentry g e) →
      (∀ a ∈ L.map Prod.fst, (cellOf bias cs (loc a)).1 ≠ -1) →
      (prepareGo bias cs loc L g).1 =
          L.map (fun e => (e.1, cellOf bias cs (loc e.1))) ∧
      (∀ e ∈ (prepareGo bias cs loc L g).1, WFentry (prepareGo bias cs loc L g).2 e) ∧
      (∀ x, x ∉ L.map Prod.fst → ∀ c,
        (cellList (prepareGo bias cs loc L g).2 c).count x = (cellList g c).count x) := by
  intro L
  induction L with
  | nil =>
    intro g _ _ _
    refine ⟨rfl, ?_, ?_⟩
    · intro e he
      cases he
    · intro x _ c
      rfl
  | cons e0 rest ih =>
    obtain ⟨a, prev⟩ := e0
    intro g hnd hWF hval
    have hnd' : (rest.map Prod.fst).Nodup := (List.nodup_cons.mp hnd).2
    have hanotin : a ∉ rest.map Prod.fst := (List.nodup_cons.mp hnd).1
    have hWFhead : WFentry g (a, prev) := hWF _ (List.mem_cons_self _ _)
    have hvala : (cellOf bias cs (loc a)).1 ≠ -1 := hval a (by simp)
    set newCell := cellOf bias cs (loc a) with hnew
    set g1 := prepStepCells a prev newCell g with hg1
    have hself : ∀ c, (cellList g1 c).count a = if c = newCell then 1 else 0 :=
      prepStepCells_count_self g a prev newCell hWFhead
    have hothers : ∀ x, x ≠ a → ∀ c,
        (cellList g1 c).count x = (cellList g c).count x :=
      fun x hx c => prepStepCells_count_ne g a prev newCell x hx c
    have hWFrest : ∀ e ∈ rest, WFentry g1 e := by
      intro e he c
      have hxa : e.1 ≠ a := by
        intro hh
        exact hanotin (hh ▸ List.mem_map_of_mem Prod.fst he)
      rw [hothers e.1 hxa c]
      exact hWF e (List.mem_cons_of_mem _ he) c
    have hvalrest : ∀ x ∈ rest.map Prod.fst, (cellOf bias cs (loc x)).1 ≠ -1 := by
      intro x hxx
      exact hval x (List.mem_cons_of_mem _ hxx)
    obtain ⟨ihfst, ihWF, ihfrozen⟩ := ih g1 hnd' hWFrest hvalrest
    have hunfold : prepareGo bias cs loc ((a, prev) :: rest) g =
        ((a, prepStepCache prev newCell) :: (prepareGo bias cs loc rest g1).1,
          (prepareGo bias cs loc rest g1).2) := rfl
    refine ⟨?_, ?_, ?_⟩
    · rw [hunfold]
      simp only [List.map_cons]
      rw [prepStepCache_eq, ihfst]
    · rw [hunfold]
      intro e he
      rcases List.mem_cons.mp he with he1 | he2
      · subst he1
        intro c
        rw [prepStepCache_eq]
        have := ihfrozen a hanotin c
        simp only at this
        rw [this, hself c]
        by_cases hc : c = newCell <;> simp [hc, hvala]
      · exact ihWF e he2
    · rw [hunfold]
      intro x hx c
      have hxa : x ≠ a := by
        intro hh
        exact hx (by simp [hh])
      have hxrest : x ∉ rest.map Prod.fst := by
        intro hh
        exact hx (by simp [hh])
      rw [ihfrozen x hxrest c, hothers x hxa c]

/-- One `PrepareForReplication` pass preserves well-formedness, recomputes
every cached cell, and keeps the set of tracked actors. -/
theorem prepare_preserves (bias : ℚ × ℚ) (cs : ℚ) (loc : Actor → ℚ × ℚ)
    (st : PVSNodeState) (hWF : pvsWF st)
    (hv : ∀ a ∈ st.dynamicSpatializedActors.map Prod.fst,
      (cellOf bias cs (loc a)).1 ≠ -1) :
    pvsWF (prepareForReplication_PVS bias cs loc st) ∧
    (prepareForReplication_PVS bias cs loc st).dynamicSpatializedActors =
      st.dynamicSpatializedActors.map (fun e => (e.1, cellOf bias cs (loc e.1))) ∧
    (prepareForReplication_PVS bias cs loc st).dynamicSpatializedActors.map Prod.fst =
      st.dynamicSpatializedActors.map Prod.fst := by
  obtain ⟨hnd, hWFe⟩ := hWF
  obtain ⟨hfst, hWF2, _⟩ :=
    prepareGo_spec bias cs loc st.dynamicSpatializedActors st.gridCells hnd hWFe hv
  have hdyn : (prepareForReplication_PVS bias cs loc st).dynamicSpatializedActors =
      st.dynamicSpatializedActors.map (fun e => (e.1, cellOf bias cs (loc e.1))) := hfst
  have hkeys : (prepareForReplication_PVS bias cs loc st).dynamicSpatializedActors.map Prod.fst =
      st.dynamicSpatializedActors.map Prod.fst := by
    rw [hdyn, List.map_map]
    rfl
  refine ⟨⟨?_, ?_⟩, hdyn, hkeys⟩
  · rw [hkeys]
    exact hnd
  · exact hWF2

/-- A sequence of preparation passes preserves well-formedness and the set of
tracked actors. -/
theorem prepareSeq_WF_keys (bias : ℚ × ℚ) (cs : ℚ) :
    ∀ (locs : List (Actor → ℚ × ℚ)) (st : PVSNodeState),
      pvsWF st →
      (∀ l ∈ locs, ∀ a ∈ st.dynamicSpatializedActors.map Prod.fst,
        (cellOf bias cs (l a)).1 ≠ -1) →
      pvsWF (prepareSeq bias cs locs st) ∧
      (prepareSeq bias cs locs st).dynamicSpatializedActors.map Prod.fst =
        st.dynamicSpatializedActors.map Prod.fst := by
  intro locs
  induction locs with
  | nil =>
    intro st hWF _
    exact ⟨hWF, rfl⟩
  | cons l rest ih =>
    intro st hWF hv
    have hv1 : ∀ a ∈ st.dynamicSpatializedActors.map Prod.fst,
        (cellOf bias cs (l a)).1 ≠ -1 :=
      hv l (List.mem_cons_self _ _)
    obtain ⟨hWF1, _, hkeys1⟩ := prepare_preserves bias cs l st hWF hv1
    have hvrest : ∀ f ∈ rest,
        ∀ a ∈ (prepareForReplication_PVS bias cs l st).dynamicSpatializedActors.map Prod.fst,
        (cellOf bias cs (f a)).1 ≠ -1 := by
      intro f hf a ha
      rw [hkeys1] at ha
      exact hv f (List.mem_cons_of_mem _ hf) a ha
    obtain ⟨hWF2, hkeys2⟩ := ih (prepareForReplication_PVS bias cs l st) hWF1 hvrest
    constructor
    · exact hWF2
    · calc (prepareSeq bias cs (l :: rest) st).dynamicSpatializedActors.map Prod.fst
          = (prepareSeq bias cs rest
              (prepareForReplication_PVS bias cs l st)).dynamicSpatializedActors.map Prod.fst := rfl
        _ = (prepareForReplication_PVS bias cs l st).dynamicSpatializedActors.map Prod.fst :=
            hkeys2
        _ = st.dynamicSpatializedActors.map Prod.fst := hkeys1

/-- Looking up an actor in the recomputed map yields its new cached cell. -/
theorem assocFind_map_value (f : Actor → CellCoord) :
    ∀ (L : List (Actor × CellCoord)) (a : Actor), a ∈ L.map Prod.fst →
      assocFind a (L.map (fun e => (e.1, f e.1))) = some (f a) := by
  intro L
  induction L with
  | nil =>
    intro a ha
    cases ha
  | cons e rest ih =>
    intro a ha
    by_cases h : e.1 = a
    · simp [assocFind, h]
    · have ha' : a ∈ rest.map Prod.fst := by
        rcases List.mem_map.mp ha with ⟨e2, he2, hfst⟩
        rcases List.mem_cons.mp he2 with h1 | h2
        · exact absurd (h1 ▸ hfst) h
        · exact hfst ▸ List.mem_map_of_mem Prod.fst h2
      simp [assocFind, h, ih a ha']

/-- C3 amended: starting from a well-formed PVS node, after any sequence of
position updates and `PrepareForReplication` passes ending in a pass that
reads locations `l`, every tracked dynamic actor has its cached cell equal to
the truncation-toward-zero cell `cellOf` of its last-known position, and the
actor occurs exactly once in that cell's list and in no other cell.  The
hypothesis that every computed cell index is nonnegative reflects the
source's dense `TArray` grid, which only admits nonnegative indices (the
spatial bias is chosen to map the most negative expected coordinate to index
zero).  The truncation `cellOf` agrees with the specification's
`floor((pos - bias) / cellSize)` whenever the position is at or above the
bias, but not below it (see the counterexample). -/
theorem pvs_dynamic_actor_single_cell (bias : ℚ × ℚ) (cs : ℚ) (st : PVSNodeState)
    (locs : List (Actor → ℚ × ℚ)) (l : Actor → ℚ × ℚ)
    (hWF : pvsWF st)
    (hv : ∀ f ∈ locs ++ [l], ∀ a ∈ st.dynamicSpatializedActors.map Prod.fst,
      0 ≤ (cellOf bias cs (f a)).1 ∧ 0 ≤ (cellOf bias cs (f a)).2) :
    ∀ a ∈ st.dynamicSpatializedActors.map Prod.fst,
      assocFind a (prepareSeq bias cs (locs ++ [l]) st).dynamicSpatializedActors =
        some (cellOf bias cs (l a)) ∧
      ∀ c, (cellList (prepareSeq bias cs (locs ++ [l]) st).gridCells c).count a =
        if c = cellOf bias cs (l a) then 1 else 0 := by
  intro a ha
  have hvne : ∀ f ∈ locs ++ [l], ∀ x ∈ st.dynamicSpatializedActors.map Prod.fst,
      (cellOf bias cs (f x)).1 ≠ -1 := by
    intro f hf x hx
    have := (hv f hf x hx).1
    omega
  have hsplit : prepareSeq bias cs (locs ++ [l]) st =
      prepareForReplication_PVS bias cs l (prepareSeq bias cs locs st) := by
    unfold prepareSeq
    rw [List.foldl_append]
    rfl
  set mid := prepareSeq bias cs locs st with hmid
  obtain ⟨hWFmid, hkeysmid⟩ := prepareSeq_WF_keys bias cs locs st hWF
    (fun f hf => hvne f (List.mem_append_left _ hf))
  have hvl : ∀ x ∈ mid.dynamicSpatializedActors.map Prod.fst,
      (cellOf bias cs (l x)).1 ≠ -1 := by
    intro x hx
    rw [hkeysmid] at hx
    exact hvne l (List.mem_append_right _ (List.mem_singleton_self _)) x hx
  obtain ⟨hnd, hWFe⟩ := hWFmid
  obtain ⟨hfst, hWFfin, _⟩ :=
    prepareGo_spec bias cs l mid.dynamicSpatializedActors mid.gridCells hnd hWFe hvl
  have hamid : a ∈ mid.dynamicSpatializedActors.map Prod.fst := by
    rw [hkeysmid]
    exact ha
  constructor
  · rw [hsplit]
    show assocFind a (prepareForReplication_PVS bias cs l mid).dynamicSpatializedActors = _
    have hdyn : (prepareForReplication_PVS bias cs l mid).dynamicSpatializedActors =
        mid.dynamicSpatializedActors.map (fun e => (e.1, cellOf bias cs (l e.1))) := hfst
    rw [hdyn]
    exact assocFind_map_value (fun x => cellOf bias cs (l x)) mid.dynamicSpatializedActors a hamid
  · intro c
    rw [hsplit]
    have hdyn : (prepareForReplication_PVS bias cs l mid).dynamicSpatializedActors =
        mid.dynamicSpatializedActors.map (fun e => (e.1, cellOf bias cs (l e.1))) := hfst
    have hmem : (a, cellOf bias cs (l a)) ∈
        (prepareForReplication_PVS bias cs l mid).dynamicSpatializedActors := by
      rw [hdyn]
      rcases List.mem_map.mp hamid with ⟨e2, he2, hfst2⟩
      exact List.mem_map.mpr ⟨e2, he2, by rw [hfst2]⟩
    have hWFa : WFentry (prepareForReplication_PVS bias cs l mid).gridCells
        (a, cellOf bias cs (l a)) := hWFfin _ hmem
    have hcnt := hWFa c
    simp only at hcnt
    rw [hcnt]
    have hval : (cellOf bias cs (l a)).1 ≠ -1 := hvl a hamid
    by_cases hc : c = cellOf bias cs (l a) <;> simp [hc, hval]

/-- The counterexample cell computation: position (-700, 0), bias
(-600, -600), cell size 200 — the X quotient is -1/2, truncated to 0. -/
theorem cex_trunc_cell :
    cellOf ((-600 : ℚ), (-600 : ℚ)) 200 ((-700 : ℚ), (0 : ℚ)) = ((0 : ℤ), (3 : ℤ)) := by
  unfold cellOf truncQ
  norm_num

/-- The node state after adding actor 0 and one preparation pass at position
(-700, 0): the actor sits in cell (0, 3) with its cache updated. -/
theorem cex_prepared_state :
    prepareForReplication_PVS ((-600 : ℚ), (-600 : ℚ)) 200 (fun _ => ((-700 : ℚ), (0 : ℚ)))
        (addActorInternal_Dynamic 0 pvsInit) =
      ⟨[(0, ((0 : ℤ), (3 : ℤ)))], [(((0 : ℤ), (3 : ℤ)), [0])]⟩ := by
  show prepareForReplication_PVS _ _ _ ⟨[(0, (-1, -1))], []⟩ = _
  unfold prepareForReplication_PVS prepareGo
  simp [prepStepCells, prepStepCache, cex_trunc_cell, cellsAddDynamicActor]
  exact ⟨rfl, rfl⟩

/-- C3 counterexample: the cell index the code computes is the float-to-int
truncation toward zero, not the floor the claim states.  Actor 0 at position
(-700, 0) with bias (-600, -600) and cell size 200: the code places it in
cell (0, 3) (X quotient -1/2 truncates to 0), while the claim's formula
`floor((pos - bias)/cellSize)` gives cell (-1, 3); the actor is not in that
cell. -/
theorem pvs_cell_floor_formula_cex :
    specFloorCell ((-600 : ℚ), (-600 : ℚ)) 200 ((-700 : ℚ), (0 : ℚ)) = ((-1 : ℤ), (3 : ℤ)) ∧
    (cellList (prepareForReplication_PVS ((-600 : ℚ), (-600 : ℚ)) 200
        (fun _ => ((-700 : ℚ), (0 : ℚ)))
        (addActorInternal_Dynamic 0 pvsInit)).gridCells ((0 : ℤ), (3 : ℤ))).count 0 = 1 ∧
    (cellList (prepareForReplication_PVS ((-600 : ℚ), (-600 : ℚ)) 200
        (fun _ => ((-700 : ℚ), (0 : ℚ)))
        (addActorInternal_Dynamic 0 pvsInit)).gridCells ((-1 : ℤ), (3 : ℤ))).count 0 = 0 ∧
    assocFind (0 : Actor) (prepareForReplication_PVS ((-600 : ℚ), (-600 : ℚ)) 200
        (fun _ => ((-700 : ℚ), (0 : ℚ)))
        (addActorInternal_Dynamic 0 pvsInit)).dynamicSpatializedActors =
      some ((0 : ℤ), (3 : ℤ)) ∧
    (((0 : ℤ), (3 : ℤ)) : CellCoord) ≠ ((-1 : ℤ), (3 : ℤ)) := by
  refine ⟨?_, ?_, ?_, ?_, by decide⟩
  · unfold specFloorCell
    norm_num
  · rw [cex_prepared_state]
    decide
  · rw [cex_prepared_state]
    decide
  · rw [cex_prepared_state]
    decide

/-- Helper for the C3 witness: the witness location (5/2, 7/2) with zero bias
and unit cell size falls in cell (2, 3). -/
theorem wit_trunc_cell :
    cellOf ((0 : ℚ), (0 : ℚ)) 1 ((5 / 2 : ℚ), (7 / 2 : ℚ)) = ((2 : ℤ), (3 : ℤ)) := by
  unfold cellOf truncQ
  norm_num

/-- Helper for the C3 witness: the start state tracking only actor 5, not yet
placed, is well-formed. -/
theorem wit_wf : pvsWF ⟨[(5, (-1, -1))], []⟩ := by
  constructor
  · simp
  · intro e he
    simp only [List.mem_singleton] at he
    subst he
    intro c
    simp [cellList, assocFind]

/-- Helper for the C3 witness: the single witness location pass computes
nonnegative cell indices for the tracked actor. -/
theorem wit_hv : ∀ f ∈ ([] ++ [fun _ => ((5 / 2 : ℚ), (7 / 2 : ℚ))] :
      List (Actor → ℚ × ℚ)),
    ∀ a ∈ (⟨[(5, (-1, -1))], []⟩ : PVSNodeState).dynamicSpatializedActors.map Prod.fst,
    0 ≤ (cellOf ((0 : ℚ), (0 : ℚ)) 1 (f a)).1 ∧
      0 ≤ (cellOf ((0 : ℚ), (0 : ℚ)) 1 (f a)).2 := by
  intro f hf a ha
  simp only [List.nil_append, List.mem_singleton] at hf
  subst hf
  rw [wit_trunc_cell]
  exact ⟨by norm_num, by norm_num⟩

/-- C3 amended, witnessed on a node tracking actor 5, one preparation pass at
position (5/2, 7/2) with zero bias and unit cell size. -/
theorem pvs_dynamic_actor_single_cell_witness :
    pvsWF ⟨[(5, (-1, -1))], []⟩ ∧
    (∀ a ∈ (⟨[(5, (-1, -1))], []⟩ : PVSNodeState).dynamicSpatializedActors.map Prod.fst,
      assocFind a (prepareSeq ((0 : ℚ), (0 : ℚ)) 1
          ([] ++ [fun _ => ((5 / 2 : ℚ), (7 / 2 : ℚ))])
          ⟨[(5, (-1, -1))], []⟩).dynamicSpatializedActors =
        some (cellOf ((0 : ℚ), (0 : ℚ)) 1 ((5 / 2 : ℚ), (7 / 2 : ℚ))) ∧
      ∀ c, (cellList (prepareSeq ((0 : ℚ), (0 : ℚ)) 1
          ([] ++ [fun _ => ((5 / 2 : ℚ), (7 / 2 : ℚ))])
          ⟨[(5, (-1, -1))], []⟩).gridCells c).count a =
        if c = cellOf ((0 : ℚ), (0 : ℚ)) 1 ((5 / 2 : ℚ), (7 / 2 : ℚ)) then 1 else 0) :=
  ⟨wit_wf,
    pvs_dynamic_actor_single_cell ((0 : ℚ), (0 : ℚ)) 1 ⟨[(5, (-1, -1))], []⟩ []
      (fun _ => ((5 / 2 : ℚ), (7 / 2 : ℚ))) wit_wf wit_hv⟩

end NebulaRepGraph
